import Mathlib

/-!
Shallow embedding of the Role&Roll dice-pool engine
(`src/module/my-simple-dice/scripts/custom-dice.mjs` and
`src/module/rnr_test.mjs`) and proofs about it.

JavaScript numeric values that flow through the engine are modelled by
`JVal`: an actual (integer) number, `NaN` (the result of coercing a
non-numeric value with `Number(...)` or unary `+`), or `undefined`
(a missing field, turned into a default by `??`).  All arithmetic the
engine performs on these values is on integers, so `Int` suffices.
-/

namespace Rolenroll

/-- A JavaScript value in a numeric position: a number, `NaN`
(non-numeric coerced by `Number`), or `undefined`/`null` (missing). -/
inductive JVal where
  | int (i : Int)
  | nan
  | undefined
deriving DecidableEq, Repr

/-- `clamp(v, min, max)` from both source files:
`v = Number(v ?? 0); if (Number.isNaN(v)) v = 0; return Math.max(min, Math.min(max, v));`
(`undefined ?? 0` is `0`, and `NaN` is replaced by `0`). -/
def clamp (v : JVal) (lo hi : Int) : Int :=
  let n : Int :=
    match v with
    | JVal.int i => i
    | JVal.nan => 0
    | JVal.undefined => 0
  max lo (min hi n)

/-- The five symbolic face labels: `"1"`, `"R"`, `"+"`, `"-"`, `""`. -/
inductive Face where
  | point
  | reroll
  | plus
  | minus
  | blank
deriving DecidableEq, Repr

/-- A die configuration object `{ kind?, plusCount?, minusCount? }`.
`kind` is a raw string (possibly absent, possibly unrecognized); the
count fields are raw JS values (possibly absent or non-numeric). -/
structure DieConfig where
  kind : Option String := none
  plusCount : Option JVal := none
  minusCount : Option JVal := none
deriving DecidableEq, Repr

/-- The base layout `["1", "", "", "", "", "R"]`. -/
def baseFacesList : List Face :=
  [Face.point, Face.blank, Face.blank, Face.blank, Face.blank, Face.reroll]

/-- The fill loop `for (let i = 0; i < count; i++) faces[1 + i] = f;`. -/
def fillFaces (faces : List Face) (f : Face) (count : Nat) : List Face :=
  (List.range count).foldl (fun fs i => fs.set (1 + i) f) faces

/-- `buildDieFaces(config)` from `custom-dice.mjs` (lines 17-35):
start from `["1", "", "", "", "", "R"]`; for kind `"adv"` overwrite
indexes `1 .. clamp(plusCount ?? 1, 1, 4)` with `"+"`, for `"neg"`
likewise with `"-"`; any other kind (or a missing one) leaves the base
layout. -/
def buildDieFaces (config : DieConfig) : List Face :=
  let kind := config.kind.getD "normal"
  if kind = "adv" then
    let plusCount := clamp (config.plusCount.getD (JVal.int 1)) 1 4
    fillFaces baseFacesList Face.plus plusCount.toNat
  else if kind = "neg" then
    let minusCount := clamp (config.minusCount.getD (JVal.int 1)) 1 4
    fillFaces baseFacesList Face.minus minusCount.toNat
  else
    baseFacesList

/-- JS `>` between a possibly non-numeric value and a number:
`NaN > n` and `undefined > n` are `false`. -/
def jgt (v : JVal) (n : Int) : Bool :=
  match v with
  | JVal.int i => n < i
  | JVal.nan => false
  | JVal.undefined => false

/-- `buildDieFaces(config)` from `rnr_test.mjs` (lines 17-38): same as
the `custom-dice.mjs` version except for a redundant pre-cap
`if (plusCount > 4) plusCount = 4;` before the clamp. -/
def buildDieFaces_rnr (config : DieConfig) : List Face :=
  let kind := config.kind.getD "normal"
  if kind = "adv" then
    let p0 := config.plusCount.getD (JVal.int 1)
    let p1 := if jgt p0 4 then JVal.int 4 else p0
    let plusCount := clamp p1 1 4
    fillFaces baseFacesList Face.plus plusCount.toNat
  else if kind = "neg" then
    let m0 := config.minusCount.getD (JVal.int 1)
    let m1 := if jgt m0 4 then JVal.int 4 else m0
    let minusCount := clamp m1 1 4
    fillFaces baseFacesList Face.minus minusCount.toNat
  else
    baseFacesList

/-- `faceForRoll(config, value)` (identical in both files):
`faces[clamp(value, 1, 6) - 1]`.  JS array indexing that might miss is
modelled by `List.get?`, so an out-of-bounds access would be `none`
(JS `undefined`). -/
def faceForRoll (config : DieConfig) (value : JVal) : Option Face :=
  (buildDieFaces config).get? (clamp value 1 6 - 1).toNat

/-! ## Scoring -/

/-- Mutable counters of the `scoreFaces` loop. -/
structure Counts where
  basePoints : Nat
  plusCount : Nat
  minusCount : Nat
  rerollCount : Nat
deriving DecidableEq, Repr

/-- One step of the `for (const f of faces)` loop in `scoreFaces`
(`custom-dice.mjs` lines 55-66): a face that is JS `undefined` (an
out-of-bounds access, modelled `none`) matches no branch. -/
def tally (s : Counts) (f : Option Face) : Counts :=
  if f = some Face.point then
    { s with basePoints := s.basePoints + 1 }
  else if f = some Face.reroll then
    { s with basePoints := s.basePoints + 1, rerollCount := s.rerollCount + 1 }
  else if f = some Face.plus then
    { s with plusCount := s.plusCount + 1 }
  else if f = some Face.minus then
    { s with minusCount := s.minusCount + 1 }
  else s

/-- The record returned by `scoreFaces`. -/
structure Score where
  basePoints : Nat
  plusCount : Nat
  minusCount : Nat
  rerollCount : Nat
  total : Int
deriving DecidableEq, Repr

/-- `scoreFaces(faces)` from `custom-dice.mjs` (lines 49-75): count the
four symbols, then `total = basePoints > 0 ? max-with-0 of
basePoints + plusCount - minusCount : 0`. -/
def scoreFaces (faces : List (Option Face)) : Score :=
  let c := faces.foldl tally ⟨0, 0, 0, 0⟩
  let total : Int :=
    if c.basePoints > 0 then
      let t : Int := (c.basePoints : Int) + (c.plusCount : Int) - (c.minusCount : Int)
      if t < 0 then 0 else t
    else 0
  ⟨c.basePoints, c.plusCount, c.minusCount, c.rerollCount, total⟩

/-- One step of the `for (const f of faces)` loop in the `scoreFaces`
copy of `rnr_test.mjs` (lines 82-93), which uses `++` where the other
copy uses `+= 1`. -/
def tally_rnr (s : Counts) (f : Option Face) : Counts :=
  if f = some Face.point then
    { s with basePoints := s.basePoints + 1 }
  else if f = some Face.reroll then
    { s with basePoints := s.basePoints + 1, rerollCount := s.rerollCount + 1 }
  else if f = some Face.plus then
    { s with plusCount := s.plusCount + 1 }
  else if f = some Face.minus then
    { s with minusCount := s.minusCount + 1 }
  else s

/-- `scoreFaces(faces)` from `rnr_test.mjs` (lines 76-102). -/
def scoreFaces_rnr (faces : List (Option Face)) : Score :=
  let c := faces.foldl tally_rnr ⟨0, 0, 0, 0⟩
  let total : Int :=
    if c.basePoints > 0 then
      let t : Int := (c.basePoints : Int) + (c.plusCount : Int) - (c.minusCount : Int)
      if t < 0 then 0 else t
    else 0
  ⟨c.basePoints, c.plusCount, c.minusCount, c.rerollCount, total⟩

/-! ## Pool resolution -/

/-- One per-die record `{ config, roll: value, face }`. -/
structure RoundResult where
  config : DieConfig
  roll : JVal
  face : Option Face
deriving DecidableEq, Repr

/-- An external random-die source: the value returned by the `k`-th
evaluation of `new Roll("1d6")` in the whole pool resolution.  A real
d6 returns integers 1..6, but nothing here assumes that. -/
def RandomSource : Type := Nat → JVal

/-- The per-round inner loop, shared verbatim by `_rollOneRound` of
`rnr_test.mjs` (lines 109-133) and the body of the `while` loop of
`rollRolenrollPool` in `custom-dice.mjs` (lines 102-114): for each
config roll one value, record `{config, roll, face}`, and queue a copy
`{...config}` for the next round when the face is `"R"`.  Returns
(round results, reroll configs, next random index). -/
def rollOneRound (rng : RandomSource) (k : Nat) :
    List DieConfig → List RoundResult × List DieConfig × Nat
  | [] => ([], [], k)
  | config :: rest =>
    let value := rng k
    let face := faceForRoll config value
    let r := rollOneRound rng (k + 1) rest
    (⟨config, value, face⟩ :: r.1,
     (if face = some Face.reroll then config :: r.2.1 else r.2.1),
     r.2.2)

/-- The `while (pending.length > 0 && safety < 100)` loop of
`rollRolenrollPool` in `custom-dice.mjs` (lines 93-117), grouped by
round; `fuel = 100 - safety`. -/
def poolLoop (rng : RandomSource) : Nat → Nat → List DieConfig → List (List RoundResult)
  | _, 0, _ => []
  | k, fuel + 1, pending =>
    if pending.isEmpty then []
    else
      let r := rollOneRound rng k pending
      r.1 :: poolLoop rng r.2.2 fuel r.2.1

/-- A `{ kind: "normal" }` die. -/
def normalDie : DieConfig := { kind := some "normal" }

/-- What `rollRolenrollPool` returns (`custom-dice.mjs` line 153),
plus the round grouping of the loop. -/
structure PoolOutcome where
  rounds : List (List RoundResult)
  faces : List (Option Face)
  scoring : Score
deriving DecidableEq, Repr

/-- The `dice` argument of `rollRolenrollPool`: `none` models a missing
or non-array argument, `some l` an actual array. -/
def DiceArg : Type := Option (List DieConfig)

/-- `rollRolenrollPool({actor, dice})` from `custom-dice.mjs`
(lines 83-154), pure part: default to 5 normal dice when `dice` is not
an array or is empty, run the reroll loop with `safety` capped at 100,
and score all accumulated faces. -/
def rollRolenrollPool (rng : RandomSource) (dice : DiceArg) : PoolOutcome :=
  let dice :=
    match dice with
    | none => List.replicate 5 normalDie
    | some l => if l.isEmpty then List.replicate 5 normalDie else l
  let rounds := poolLoop rng 0 100 dice
  let allFaces := rounds.flatten.map (·.face)
  ⟨rounds, allFaces, scoreFaces allFaces⟩

/-! ## Finalization (`rnr_test.mjs`) -/

/-- `Number.isFinite(+v) ? +v : 0` (`rnr_test.mjs` lines 156-157):
unary `+` turns a non-numeric value into `NaN`, which is not finite. -/
def toFiniteNumber (v : JVal) : Int :=
  match v with
  | JVal.int i => i
  | JVal.nan => 0
  | JVal.undefined => 0

/-- `s + ((f === "1" || f === "R") ? 1 : 0)` reductions of
`_finalizeAndSend` (lines 144-151). -/
def pointStep (s : Nat) (f : Option Face) : Nat :=
  s + (if f = some Face.point ∨ f = some Face.reroll then 1 else 0)

/-- The flattening of `_finalizeAndSend` (lines 137-139):
`baseFaces = rounds[0] ? rounds[0].map(face) : []` concatenated with
`rounds.slice(1).flat().map(face)`. -/
def allFacesOf (rounds : List (List RoundResult)) : List (Option Face) :=
  let baseFaces :=
    match rounds with
    | [] => []
    | r :: _ => r.map (·.face)
  let rerollFaces := (rounds.drop 1).flatten.map (·.face)
  baseFaces ++ rerollFaces

/-- The scoring record assembled by `_finalizeAndSend`
(`rnr_test.mjs` lines 208-222), without the chat-HTML side effects. -/
structure FinalScoring where
  scoringBase : Score
  baseScore : Nat
  rerollPoints : Nat
  plusTokens : Nat
  minusTokens : Nat
  rerollCount : Nat
  success : Int
  penalty : Int
  diceTotal : Int
  finalTotal : Int
deriving DecidableEq, Repr

/-- Pure part of `_finalizeAndSend(actor, rounds, bonusSuccess,
bonusPenalty)` from `rnr_test.mjs` (lines 136-223). -/
def finalizeAndSend (rounds : List (List RoundResult))
    (bonusSuccess bonusPenalty : JVal) : FinalScoring :=
  let allFaces := allFacesOf rounds
  let baseFaces : List (Option Face) :=
    match rounds with
    | [] => []
    | r :: _ => r.map (·.face)
  let rerollFaces := (rounds.drop 1).flatten.map (·.face)
  let scoringBase := scoreFaces_rnr allFaces
  let diceTotal := scoringBase.total
  let baseScore := baseFaces.foldl pointStep 0
  let rerollPoints := rerollFaces.foldl pointStep 0
  let plusTokens := (allFaces.filter (fun f => f = some Face.plus)).length
  let minusTokens := (allFaces.filter (fun f => f = some Face.minus)).length
  let rerollCount := (allFaces.filter (fun f => f = some Face.reroll)).length
  let success0 := toFiniteNumber bonusSuccess
  let penalty0 := toFiniteNumber bonusPenalty
  let success := if success0 < 0 then 0 else success0
  let penalty := if penalty0 < 0 then 0 else penalty0
  let finalTotal0 := diceTotal + success - penalty
  let finalTotal := if finalTotal0 < 0 then 0 else finalTotal0
  ⟨scoringBase, baseScore, rerollPoints, plusTokens, minusTokens,
   rerollCount, success, penalty, diceTotal, finalTotal⟩

/-- The spec's reading of a caller-supplied bonus: coerce non-numeric
to 0 and clamp negatives to 0. -/
def clampBonus (v : JVal) : Int :=
  max 0 (toFiniteNumber v)

/-- Number of occurrences of the face `f` in a face list (used to state
the spec's counting claims). -/
def countFace (faces : List (Option Face)) (f : Face) : Nat :=
  faces.countP (fun x => decide (x = some f))

/-! ## Helper lemmas -/

theorem clamp_lower (v : JVal) (lo hi : Int) : lo ≤ clamp v lo hi :=
  le_max_left _ _

theorem clamp_upper (v : JVal) (lo hi : Int) (h : lo ≤ hi) : clamp v lo hi ≤ hi :=
  max_le h (min_le_left _ _)

/-- The clamped count, as a `Nat`, is between 1 and 4. -/
theorem clampCount_bounds (v : JVal) :
    1 ≤ (clamp v 1 4).toNat ∧ (clamp v 1 4).toNat ≤ 4 := by
  have h1 := clamp_lower v 1 4
  have h2 := clamp_upper v 1 4 (by norm_num)
  omega

/-- The pre-cap `if (count > 4) count = 4` is absorbed by the
subsequent `clamp(count, 1, 4)`. -/
theorem clamp_precap (v : JVal) :
    clamp (if jgt v 4 then JVal.int 4 else v) 1 4 = clamp v 1 4 := by
  rcases v with i | _ | _
  · by_cases h : (4 : Int) < i
    · simp [jgt, h, clamp]
      omega
    · simp [jgt, h]
  · rfl
  · rfl

/-- The two `buildDieFaces` implementations agree on every config. -/
theorem buildDieFaces_rnr_eq (config : DieConfig) :
    buildDieFaces_rnr config = buildDieFaces config := by
  simp only [buildDieFaces_rnr, buildDieFaces, clamp_precap]

/-- Unfolding `buildDieFaces` on an advantage config. -/
theorem buildDieFaces_adv (config : DieConfig)
    (h : config.kind.getD "normal" = "adv") :
    buildDieFaces config =
      fillFaces baseFacesList Face.plus
        (clamp (config.plusCount.getD (JVal.int 1)) 1 4).toNat := by
  simp only [buildDieFaces]
  rw [if_pos h]

/-- Unfolding `buildDieFaces` on a negative config. -/
theorem buildDieFaces_neg (config : DieConfig)
    (ha : config.kind.getD "normal" ≠ "adv")
    (h : config.kind.getD "normal" = "neg") :
    buildDieFaces config =
      fillFaces baseFacesList Face.minus
        (clamp (config.minusCount.getD (JVal.int 1)) 1 4).toNat := by
  simp only [buildDieFaces]
  rw [if_neg ha, if_pos h]

/-- Unfolding `buildDieFaces` on any other kind. -/
theorem buildDieFaces_other (config : DieConfig)
    (ha : config.kind.getD "normal" ≠ "adv")
    (hn : config.kind.getD "normal" ≠ "neg") :
    buildDieFaces config = baseFacesList := by
  simp only [buildDieFaces]
  rw [if_neg ha, if_neg hn]

theorem fillFaces_one (f : Face) :
    fillFaces baseFacesList f 1 =
      [Face.point, f, Face.blank, Face.blank, Face.blank, Face.reroll] := rfl

theorem fillFaces_two (f : Face) :
    fillFaces baseFacesList f 2 =
      [Face.point, f, f, Face.blank, Face.blank, Face.reroll] := rfl

theorem fillFaces_three (f : Face) :
    fillFaces baseFacesList f 3 =
      [Face.point, f, f, f, Face.blank, Face.reroll] := rfl

theorem fillFaces_four (f : Face) :
    fillFaces baseFacesList f 4 =
      [Face.point, f, f, f, f, Face.reroll] := rfl

/-- Shape of a filled layout for any in-range count. -/
theorem fillFaces_spec (f : Face) (c : Nat) (h1 : 1 ≤ c) (h4 : c ≤ 4) :
    (fillFaces baseFacesList f c).length = 6 ∧
    (fillFaces baseFacesList f c).get? 0 = some Face.point ∧
    (fillFaces baseFacesList f c).get? 5 = some Face.reroll ∧
    ∀ j : Nat, 1 ≤ j → j ≤ 4 →
      (fillFaces baseFacesList f c).get? j =
        if j ≤ c then some f else some Face.blank := by
  interval_cases c <;>
    refine ⟨rfl, rfl, rfl, ?_⟩ <;>
      (intro j hj1 hj4; interval_cases j <;> rfl)

/-- Every layout has exactly 6 faces. -/
theorem buildDieFaces_length (config : DieConfig) :
    (buildDieFaces config).length = 6 := by
  by_cases ha : config.kind.getD "normal" = "adv"
  · rw [buildDieFaces_adv config ha]
    obtain ⟨h1, h4⟩ := clampCount_bounds (config.plusCount.getD (JVal.int 1))
    exact (fillFaces_spec Face.plus _ h1 h4).1
  · by_cases hn : config.kind.getD "normal" = "neg"
    · rw [buildDieFaces_neg config ha hn]
      obtain ⟨h1, h4⟩ := clampCount_bounds (config.minusCount.getD (JVal.int 1))
      exact (fillFaces_spec Face.minus _ h1 h4).1
    · rw [buildDieFaces_other config ha hn]
      rfl

/-- Running the `scoreFaces` counting loop from any starting counters
adds the per-face occurrence counts. -/
theorem foldl_tally (faces : List (Option Face)) : ∀ init : Counts,
    faces.foldl tally init =
      ⟨init.basePoints + countFace faces Face.point + countFace faces Face.reroll,
       init.plusCount + countFace faces Face.plus,
       init.minusCount + countFace faces Face.minus,
       init.rerollCount + countFace faces Face.reroll⟩ := by
  induction faces with
  | nil =>
    intro init
    simp [countFace]
  | cons f fs ih =>
    intro init
    rw [List.foldl_cons, ih]
    rcases f with _ | f
    · simp [tally, countFace, List.countP_cons]
    · cases f <;> simp [tally, countFace, List.countP_cons] <;> omega

/-- One round produces exactly one result per input config. -/
theorem rollOneRound_length (rng : RandomSource) (configs : List DieConfig) :
    ∀ k : Nat, (rollOneRound rng k configs).1.length = configs.length := by
  induction configs with
  | nil => intro k; rfl
  | cons c cs ih =>
    intro k
    simp [rollOneRound, ih]

/-- The reroll loop cannot run more rounds than it has fuel. -/
theorem poolLoop_length_le (rng : RandomSource) :
    ∀ (fuel k : Nat) (pending : List DieConfig),
      (poolLoop rng k fuel pending).length ≤ fuel := by
  intro fuel
  induction fuel with
  | zero => intro k pending; simp [poolLoop]
  | succ n ih =>
    intro k pending
    rw [poolLoop]
    split
    · simp
    · simpa using ih _ _

/-! ## Claim theorems -/

/-- C1: for every list of faces, `scoreFaces` returns `basePoints` =
number of Point or Reroll faces, `rerollCount` = number of Reroll faces
(a Reroll face counts in both simultaneously), `plusCount`/`minusCount`
= number of Plus/Minus faces, and a `total` that is 0 when `basePoints`
is 0 and otherwise `max(0, basePoints + plusCount - minusCount)`; plus
and minus tokens have no effect when `basePoints` is 0. -/
theorem scoreFaces_counts_and_total (faces : List (Option Face)) :
    (scoreFaces faces).basePoints =
      countFace faces Face.point + countFace faces Face.reroll ∧
    (scoreFaces faces).rerollCount = countFace faces Face.reroll ∧
    (scoreFaces faces).plusCount = countFace faces Face.plus ∧
    (scoreFaces faces).minusCount = countFace faces Face.minus ∧
    (scoreFaces faces).total =
      (if countFace faces Face.point + countFace faces Face.reroll = 0 then 0
       else
         max 0 (((countFace faces Face.point + countFace faces Face.reroll : Nat) : Int)
           + (countFace faces Face.plus : Nat) - (countFace faces Face.minus : Nat))) := by
  have h := foldl_tally faces ⟨0, 0, 0, 0⟩
  refine ⟨?_, ?_, ?_, ?_, ?_⟩ <;>
    simp only [scoreFaces, h] <;>
    (try split_ifs) <;>
    omega

/-- C8: the automatic-reroll variant (`custom-dice.mjs`) and the
interactive variant (`rnr_test.mjs`) score the flattened face list with
extensionally equal `scoreFaces` functions, so identical accumulated
rounds and random values give identical pool scores. -/
theorem scoreFaces_variants_agree (faces : List (Option Face)) :
    scoreFaces_rnr faces = scoreFaces faces := rfl

/-- C2: at finalization, for every accumulated list of rounds and every
caller-supplied bonus pair, the final total is
`max(0, diceTotal + bonusSuccess - bonusPenalty)` with negative or
non-numeric bonus inputs first coerced/clamped to 0, where `diceTotal`
is the `scoreFaces` total of all accumulated faces. -/
theorem finalize_finalTotal (rounds : List (List RoundResult))
    (bonusSuccess bonusPenalty : JVal) :
    (finalizeAndSend rounds bonusSuccess bonusPenalty).diceTotal =
      (scoreFaces_rnr (allFacesOf rounds)).total ∧
    (finalizeAndSend rounds bonusSuccess bonusPenalty).finalTotal =
      max 0 ((scoreFaces_rnr (allFacesOf rounds)).total
        + clampBonus bonusSuccess - clampBonus bonusPenalty) := by
  refine ⟨rfl, ?_⟩
  simp only [finalizeAndSend, clampBonus]
  split_ifs <;> omega

/-- C4: for every die configuration — including one whose kind is not a
recognized value, which is treated as normal — the derived layout has 6
faces, with Point at side 1 (index 0) and Reroll at side 6 (index 5);
the layout function is total (a plain Lean function) and never fails. -/
theorem layout_endpoints (config : DieConfig) :
    (buildDieFaces config).length = 6 ∧
    (buildDieFaces config).get? 0 = some Face.point ∧
    (buildDieFaces config).get? 5 = some Face.reroll ∧
    (config.kind.getD "normal" ≠ "adv" → config.kind.getD "normal" ≠ "neg" →
      buildDieFaces config = baseFacesList) := by
  by_cases ha : config.kind.getD "normal" = "adv"
  · rw [buildDieFaces_adv config ha]
    obtain ⟨h1, h4⟩ := clampCount_bounds (config.plusCount.getD (JVal.int 1))
    obtain ⟨l6, g0, g5, _⟩ := fillFaces_spec Face.plus _ h1 h4
    exact ⟨l6, g0, g5, fun h _ => absurd ha h⟩
  · by_cases hn : config.kind.getD "normal" = "neg"
    · rw [buildDieFaces_neg config ha hn]
      obtain ⟨h1, h4⟩ := clampCount_bounds (config.minusCount.getD (JVal.int 1))
      obtain ⟨l6, g0, g5, _⟩ := fillFaces_spec Face.minus _ h1 h4
      exact ⟨l6, g0, g5, fun _ h => absurd hn h⟩
    · rw [buildDieFaces_other config ha hn]
      exact ⟨rfl, rfl, rfl, fun _ _ => rfl⟩

/-- Witness for C4 at a concrete config with an unrecognized kind. -/
theorem layout_endpoints_witness :
    (buildDieFaces ⟨some "weird", some (JVal.int 3), none⟩).get? 0 = some Face.point ∧
    buildDieFaces ⟨some "weird", some (JVal.int 3), none⟩ = baseFacesList :=
  ⟨(layout_endpoints ⟨some "weird", some (JVal.int 3), none⟩).2.1,
   (layout_endpoints ⟨some "weird", some (JVal.int 3), none⟩).2.2.2
     (by decide) (by decide)⟩

/-- C5: on an advantage config, positions 1..4 of the layout hold Plus
exactly up to `clamp(plusCount, 1, 4)` (filled left to right) and Blank
beyond; analogously with Minus for a negative config.  The clamp covers
out-of-range counts (`plusCount = 7` gives 4 Plus faces, `minusCount =
0` gives 1 Minus face) and, via `clamp`'s coercion, non-numeric or
missing counts behave as 1. -/
theorem layout_fill (config : DieConfig) (j : Nat) (hj1 : 1 ≤ j) (hj4 : j ≤ 4) :
    (config.kind = some "adv" →
      (buildDieFaces config).get? j =
        if j ≤ (clamp (config.plusCount.getD (JVal.int 1)) 1 4).toNat
        then some Face.plus else some Face.blank) ∧
    (config.kind = some "neg" →
      (buildDieFaces config).get? j =
        if j ≤ (clamp (config.minusCount.getD (JVal.int 1)) 1 4).toNat
        then some Face.minus else some Face.blank) ∧
    buildDieFaces ⟨some "adv", some (JVal.int 7), none⟩ =
      [Face.point, Face.plus, Face.plus, Face.plus, Face.plus, Face.reroll] ∧
    buildDieFaces ⟨some "neg", none, some (JVal.int 0)⟩ =
      [Face.point, Face.minus, Face.blank, Face.blank, Face.blank, Face.reroll] := by
  refine ⟨?_, ?_, by decide, by decide⟩
  · intro ha
    have ha' : config.kind.getD "normal" = "adv" := by rw [ha]; rfl
    rw [buildDieFaces_adv config ha']
    obtain ⟨h1, h4⟩ := clampCount_bounds (config.plusCount.getD (JVal.int 1))
    exact (fillFaces_spec Face.plus _ h1 h4).2.2.2 j hj1 hj4
  · intro hn
    have hn' : config.kind.getD "normal" = "neg" := by rw [hn]; rfl
    have ha' : config.kind.getD "normal" ≠ "adv" := by rw [hn']; decide
    rw [buildDieFaces_neg config ha' hn']
    obtain ⟨h1, h4⟩ := clampCount_bounds (config.minusCount.getD (JVal.int 1))
    exact (fillFaces_spec Face.minus _ h1 h4).2.2.2 j hj1 hj4

/-- Witness for C5 at a concrete advantage config with a non-numeric
count (which behaves as 1): side 2 is Plus, side 3 is Blank. -/
theorem layout_fill_witness :
    (buildDieFaces ⟨some "adv", some JVal.nan, none⟩).get? 1 = some Face.plus ∧
    (buildDieFaces ⟨some "adv", some JVal.nan, none⟩).get? 2 = some Face.blank := by
  constructor
  · have h := (layout_fill ⟨some "adv", some JVal.nan, none⟩ 1
      (by decide) (by decide)).1 rfl
    rw [h]; decide
  · have h := (layout_fill ⟨some "adv", some JVal.nan, none⟩ 2
      (by decide) (by decide)).1 rfl
    rw [h]; decide

/-- C6: `faceForRoll` is total: for every die configuration and every
raw value (non-numeric coerced to 0, out-of-range clamped into [1,6])
the layout indexing stays in bounds and yields an actual face — never
JS `undefined` (`none`). -/
theorem faceForRoll_total (config : DieConfig) (value : JVal) :
    ∃ f : Face, faceForRoll config value = some f := by
  have hidx : (clamp value 1 6 - 1).toNat < (buildDieFaces config).length := by
    rw [buildDieFaces_length]
    have h1 := clamp_lower value 1 6
    have h2 := clamp_upper value 1 6 (by norm_num)
    omega
  exact ⟨(buildDieFaces config).get ⟨_, hidx⟩, List.get?_eq_get hidx⟩

/-- C9: the configs queued for the next round are exactly a copy of the
config of each result whose face is Reroll, in the original order
(empty when no face is Reroll); each rerolled die keeps the kind and
plus/minus count of the die that triggered it. -/
theorem nextRoundConfigs_spec (rng : RandomSource) (configs : List DieConfig) :
    ∀ k : Nat,
      (rollOneRound rng k configs).2.1 =
        ((rollOneRound rng k configs).1.filter
          (fun r => decide (r.face = some Face.reroll))).map (·.config) := by
  induction configs with
  | nil => intro k; rfl
  | cons c cs ih =>
    intro k
    simp only [rollOneRound]
    by_cases h : faceForRoll c (rng k) = some Face.reroll <;>
      simp [h, ih (k + 1)]

/-- C3: under the automatic policy the reroll loop always stops after
at most 100 rounds, for every behavior of the random source and every
dice argument; the score is always computed from the rounds accumulated
so far (reaching the cap is not an error); and a source that always
returns the reroll side really runs the full 100 rounds. -/
theorem pool_terminates (rng : RandomSource) (dice : DiceArg) :
    (rollRolenrollPool rng dice).rounds.length ≤ 100 ∧
    (rollRolenrollPool rng dice).scoring =
      scoreFaces ((rollRolenrollPool rng dice).rounds.flatten.map (·.face)) ∧
    (rollRolenrollPool (fun _ => JVal.int 6) (some [normalDie])).rounds.length = 100 := by
  refine ⟨?_, rfl, by decide⟩
  simp only [rollRolenrollPool]
  exact poolLoop_length_le rng 100 0 _

/-- C10: a missing/non-array `dice` argument (`none`) or an empty array
is replaced by five normal dice at the entry point, and consequently
the first round of every pool-roll invocation rolls at least one die. -/
theorem entry_default_dice (rng : RandomSource) (dice : DiceArg) :
    ((dice = none ∨ dice = some []) →
      rollRolenrollPool rng dice =
        rollRolenrollPool rng (some (List.replicate 5 normalDie))) ∧
    ∃ r rest, (rollRolenrollPool rng dice).rounds = r :: rest ∧ 1 ≤ r.length := by
  constructor
  · rintro (rfl | rfl) <;> rfl
  · rcases dice with _ | l
    · refine ⟨(rollOneRound rng 0 (List.replicate 5 normalDie)).1, _, rfl, ?_⟩
      rw [rollOneRound_length]
      decide
    · rcases l with _ | ⟨c, l'⟩
      · refine ⟨(rollOneRound rng 0 (List.replicate 5 normalDie)).1, _, rfl, ?_⟩
        rw [rollOneRound_length]
        decide
      · refine ⟨(rollOneRound rng 0 (c :: l')).1, _, rfl, ?_⟩
        rw [rollOneRound_length]
        simp

/-- Witness for C10: with an all-ones die source, an explicitly empty
dice array resolves exactly like five normal dice. -/
theorem entry_default_dice_witness :
    rollRolenrollPool (fun _ => JVal.int 1) (some []) =
      rollRolenrollPool (fun _ => JVal.int 1) (some (List.replicate 5 normalDie)) :=
  (entry_default_dice (fun _ => JVal.int 1) (some [])).1 (Or.inr rfl)

/-- Counterexample to C7 as stated: requesting a pool of 0 dice (an
empty `dice` array) with an all-ones die source does NOT yield empty
rounds and an all-zero score — five dice are rolled and `basePoints`
is 5. -/
theorem zeroDice_counterexample :
    (rollRolenrollPool (fun _ => JVal.int 1) (some [])).rounds ≠ [] ∧
    (rollRolenrollPool (fun _ => JVal.int 1) (some [])).faces.length = 5 ∧
    (rollRolenrollPool (fun _ => JVal.int 1) (some [])).scoring.basePoints = 5 := by
  decide

/-- C7 amended: a request of 0 dice is replaced at the public entry
point by five normal dice (so five dice ARE rolled); the all-zero
outcome the claim describes holds instead for finalizing an empty round
directly: every counter is 0, `diceTotal` is 0, and `finalTotal` is
`max(0, bonusSuccess - bonusPenalty)`. -/
theorem zeroDice_amended (rng : RandomSource) (bonusSuccess bonusPenalty : JVal) :
    rollRolenrollPool rng (some []) =
      rollRolenrollPool rng (some (List.replicate 5 normalDie)) ∧
    (finalizeAndSend [[]] bonusSuccess bonusPenalty).scoringBase.basePoints = 0 ∧
    (finalizeAndSend [[]] bonusSuccess bonusPenalty).plusTokens = 0 ∧
    (finalizeAndSend [[]] bonusSuccess bonusPenalty).minusTokens = 0 ∧
    (finalizeAndSend [[]] bonusSuccess bonusPenalty).rerollCount = 0 ∧
    (finalizeAndSend [[]] bonusSuccess bonusPenalty).diceTotal = 0 ∧
    (finalizeAndSend [[]] bonusSuccess bonusPenalty).finalTotal =
      max 0 (clampBonus bonusSuccess - clampBonus bonusPenalty) := by
  refine ⟨rfl, rfl, rfl, rfl, rfl, rfl, ?_⟩
  rcases bonusSuccess with s | _ | _ <;> rcases bonusPenalty with p | _ | _ <;>
    simp [finalizeAndSend, clampBonus, toFiniteNumber, allFacesOf,
      scoreFaces_rnr, tally_rnr] <;>
    (try split_ifs) <;> omega

end Rolenroll
